import Mathlib

/-!
Verification development for the BredOS `sys-config` device-tree /
boot-configuration tool (`src/sys-config.py`).

The Python functions relevant to the claims (`normalize_filename`,
`set_base_dtb`, `set_overlays`, `uboot_migrator`, the overlay-set
computation inside `dt_manager`) are shallowly embedded below.  Side
effects (privileged file writes, external command invocations, UI
messages) are represented as an explicit trace of `Effect` values and the
ambient collaborator results (existence checks, caches, parsed configs,
confirmation answers) are collected in an `Env` record.

Functions living in the external `bredos.dt` / `bredos.utilities`
modules (which are not part of this repository's sources) are modelled
from the specification; each such definition carries a doc comment
starting with `Modelled from the spec:`.
-/

set_option maxRecDepth 4000

/-! ### Character and list-of-character helpers (Python string semantics) -/

/-- Python `\s` / `str.strip` whitespace class: space, tab, newline,
carriage return, vertical tab, form feed. -/
def isWs (c : Char) : Bool :=
  c == ' ' || c == '\t' || c == '\n' || c == '\r' || c == '\x0b' || c == '\x0c'

/-- Python `str.strip()` on a list of characters: drop leading and
trailing whitespace. -/
def stripL (cs : List Char) : List Char :=
  ((cs.dropWhile isWs).reverse.dropWhile isWs).reverse

/-- The characters after the last `'/'` (the whole list if there is no
slash).  This is `os.path.basename`, and also Python's
`s[s.rfind("/") + 1 :]` and `s.rsplit("/", 1)[-1]`, which all coincide. -/
def afterLastSlashL (cs : List Char) : List Char :=
  cs.foldl (fun acc c => if c == '/' then [] else acc ++ [c]) []

/-- The stem part of CPython's `os.path.splitext` applied to a basename
(no slashes expected): split at the last dot, except when all characters
before that dot are dots (leading-dot files such as `.bashrc` keep their
name whole). -/
def splitextStemL (cs : List Char) : List Char :=
  let r := cs.reverse
  let afterDot := r.takeWhile (fun c => c != '.')
  if afterDot.length == r.length then cs
  else
    let stemR := r.drop (afterDot.length + 1)
    if stemR.all (fun c => c == '.') then cs else stemR.reverse

/-- Join lists of characters with a single separator character
(Python `sep.join(...)` for one-character separators). -/
def joinSepL (sep : Char) : List (List Char) → List Char
  | [] => []
  | l :: ls => match ls with
    | [] => l
    | _ => l ++ sep :: joinSepL sep ls

/-- Split a list of characters on `'\n'` (Python `str.split("\n")`;
the empty list yields one empty line, like Python's `"".split("\n")`). -/
def splitLinesL : List Char → List (List Char)
  | [] => [[]]
  | c :: cs =>
    if c == '\n' then [] :: splitLinesL cs
    else match splitLinesL cs with
      | [] => [[c]]
      | l :: ls => (c :: l) :: ls

/-! ### String wrappers -/

/-- `os.path.basename` (also `s[s.rfind("/") + 1 :]` / `s.rsplit("/", 1)[-1]`). -/
def basenameStr (s : String) : String :=
  String.mk (afterLastSlashL s.data)

/-- Python `str.strip()`. -/
def stripStr (s : String) : String :=
  String.mk (stripL s.data)

/-- Python `str.upper()` (ASCII portion, which covers every key used here). -/
def upperStr (s : String) : String :=
  String.mk (s.data.map Char.toUpper)

/-- Python `str.startswith` (on code points). -/
def strStartsWith (s p : String) : Bool :=
  s.data.take p.data.length == p.data

/-- Python slicing `s[n:]` (on code points). -/
def strDropN (s : String) (n : Nat) : String :=
  String.mk (s.data.drop n)

/-- Python `" ".join(strs)`. -/
def joinWords (l : List String) : String :=
  String.mk (joinSepL ' ' (l.map String.data))

/-- Embeds `normalize_filename` (src/sys-config.py lines 236-239):
take the basename, strip the last extension via `os.path.splitext`, and
append the forced extension:
`f"{os.path.splitext(os.path.basename(filename))[0]}.{extension}"`. -/
def normalize_filename (filename : String) (extension : String) : String :=
  String.mk (splitextStemL (afterLastSlashL filename.data) ++ '.' :: extension.data)

/-- Modelled from the spec: `utilities.match_filename` lives in the
external `bredos.utilities` module.  Per the spec ("resolve it against
the TreeCache; fail fast with a descriptive error if no cache entry's
normalized name matches"), it returns the first cache path whose
normalized filename equals the given normalized name, or `none` when no
entry matches.  The forced extension is made an explicit argument. -/
def match_filename (name : String) (paths : List String) (ext : String) : Option String :=
  paths.find? (fun p => normalize_filename p ext == name)

/-! ### `re.sub(r"\s*root=[^\s]+", "", params)` -/

/-- Attempt to match the regex `\s*root=[^\s]+` at the head of the list:
a maximal run of whitespace, the literal `root=`, then at least one
non-whitespace character (maximal).  Returns the remainder after the
match, or `none` when the pattern does not match here.  (No backtracking
is possible: no whitespace character can start the literal `root=`.) -/
def rootMatch (cs : List Char) : Option (List Char) :=
  let r := cs.dropWhile isWs
  if r.take 5 == ['r', 'o', 'o', 't', '='] then
    let a := r.drop 5
    let v := a.takeWhile (fun c => !(isWs c))
    if v.isEmpty then none else some (a.drop v.length)
  else none

/-- Left-to-right scan of `re.sub`: at each position, if the pattern
matches, drop the matched characters and continue right after the match;
otherwise keep the character and move on.  The fuel is the input length;
each step consumes at least one character, so it never runs out. -/
def subRootAux : Nat → List Char → List Char
  | 0, cs => cs
  | _ + 1, [] => []
  | fuel + 1, c :: cs =>
    match rootMatch (c :: cs) with
    | some rest => subRootAux fuel rest
    | none => c :: subRootAux fuel cs

/-- Embeds `re.sub(r"\s*root=[^\s]+", "", params)` from
src/sys-config.py line 735. -/
def subRootStr (s : String) : String :=
  String.mk (subRootAux s.data.length s.data)

/-! ### Ordered string dictionaries (Python `dict` with `str` keys) -/

/-- Python `d[k] = v`: replace in place when the key exists, append
otherwise (insertion order is preserved). -/
def dictInsert (cfg : List (String × String)) (k v : String) : List (String × String) :=
  if cfg.any (fun kv => kv.1 == k) then
    cfg.map (fun kv => if kv.1 == k then (k, v) else kv)
  else cfg ++ [(k, v)]

/-- Python `d.get(k)` / `d[k]` lookup (first, i.e. unique, matching key). -/
def dictLookup (k : String) (cfg : List (String × String)) : Option String :=
  (cfg.find? (fun kv => kv.1 == k)).map (fun kv => kv.2)

/-- Python `del d[k]` (total: removes every pair with the key; keys are
unique in every dictionary manipulated here). -/
def dictErase (k : String) (cfg : List (String × String)) : List (String × String) :=
  cfg.filter (fun kv => kv.1 != k)

/-! ### U-Boot / GRUB config codecs (external `bredos.dt`, spec-modelled) -/

/-- Modelled from the spec: the documented default U-Boot `BootConfig`
produced when `/etc/default/u-boot` is absent ("Both codecs must
tolerate an absent config file by producing a documented default
BootConfig").  The migration marker defaults to `"false"`
(`uboot_migrator` reads `extcfg["U_BOOT_IS_SETUP"]` unconditionally, so
the key is always present after parsing). -/
def defaultUboot : List (String × String) :=
  [("U_BOOT_IS_SETUP", "false")]

/-- Parse one line of the U-Boot grammar (whitespace-separated
`KEY value` pairs): first whitespace-delimited token is the key, the
stripped remainder is the value; blank lines yield nothing. -/
def parseLineL (l : List Char) : Option (List Char × List Char) :=
  let t := l.dropWhile isWs
  match t with
  | [] => none
  | _ => some (t.takeWhile (fun c => !(isWs c)), stripL (t.dropWhile (fun c => !(isWs c))))

/-- Fold parsed lines into a config dictionary (later lines overwrite
earlier ones, as in a Python dict built line by line). -/
def parseLines (ls : List (List Char)) (d : List (String × String)) : List (String × String) :=
  ls.foldl
    (fun c l =>
      match parseLineL l with
      | none => c
      | some kv => dictInsert c (String.mk kv.1) (String.mk kv.2))
    d

/-- Modelled from the spec: `dt.parse_uboot` ("whitespace-separated
`KEY value` pairs"; "Will load defaults if not found").  An absent file
yields the documented defaults; a present file is parsed line by line on
top of them (which keeps the marker key total, as the source relies on). -/
def parse_uboot (file : Option String) : List (String × String) :=
  match file with
  | none => defaultUboot
  | some s => parseLines (splitLinesL s.data) defaultUboot

/-- Modelled from the spec: `dt.encode_uboot` — one `KEY value` line per
entry, keys upper-cased on encode, lines joined by newlines. -/
def encode_uboot (cfg : List (String × String)) : String :=
  String.mk (joinSepL '\n' (cfg.map (fun kv => (upperStr kv.1).data ++ ' ' :: kv.2.data)))

/-- Shell-style single-quoting of a GRUB value (embedded single quotes
escaped as an end-quote, a backslash-quote, and a reopen-quote). -/
def grubQuoteL (v : List Char) : List Char :=
  '\x27' :: (v.foldr
    (fun c acc =>
      if c == '\x27' then '\x27' :: '\\' :: '\x27' :: '\x27' :: acc else c :: acc)
    []) ++ ['\x27']

/-- Modelled from the spec: `dt.encode_grub` — `KEY='quoted value'`
lines ("Encode always single-quotes values (escaping embedded single
quotes)"). -/
def encode_grub (cfg : List (String × String)) : String :=
  String.mk (joinSepL '\n' (cfg.map (fun kv => kv.1.data ++ '=' :: grubQuoteL kv.2.data)))

/-! ### Effects -/

/-- One observable side effect of the tool: a UI message, a privileged
file write (`elevated_file_write`, whose collaborator contract is to
replace the file's content wholesale), a single external command
(`runner`), a `&&`-joined batch of external commands (`mrunner`), or the
dry-run echo that `cmdr` prints instead of executing anything. -/
inductive Effect where
  | message (text : List String) (title : String)
  | writeFile (path : String) (content : String)
  | run (cmd : List String)
  | mrun (cmds : List (List String))
  | dryrunMsg (s : String)
deriving DecidableEq, Repr

/-- `runner(cmd, ...)`: in dry-run mode `cmdr` only echoes the command
(`"DRYRUN: " + " ".join(cmd)`); otherwise the command is executed. -/
def runnerEff (dryrun : Bool) (cmd : List String) : List Effect :=
  if dryrun then [Effect.dryrunMsg ("DRYRUN: " ++ joinWords cmd)] else [Effect.run cmd]

/-- `mrunner(cmds, ...)`: the commands are joined with `" && "` and run
through `sh -c`; the batch is recorded un-joined here. -/
def mrunnerEff (dryrun : Bool) (cmds : List (List String)) : List Effect :=
  if dryrun then [Effect.dryrunMsg ("DRYRUN: " ++ joinWords (cmds.map joinWords))]
  else [Effect.mrun cmds]

/-- Replay the file writes of a trace over a file system
(path → content).  Only `writeFile` effects change it. -/
def applyWrites (fs : String → Option String) (t : List Effect) : String → Option String :=
  t.foldl
    (fun f e =>
      match e with
      | Effect.writeFile p c => fun q => if q == p then some c else f q
      | _ => f)
    fs

/-- The content of `/etc/default/u-boot` after replaying a trace over an
initial content. -/
def applyUbootFile (file : Option String) (t : List Effect) : Option String :=
  t.foldl
    (fun f e =>
      match e with
      | Effect.writeFile p c => if p == "/etc/default/u-boot" then some c else f
      | _ => f)
    file

/-- Number of file-write effects in a trace. -/
def countWrites (t : List Effect) : Nat :=
  (t.filter (fun e => match e with | Effect.writeFile _ _ => true | _ => false)).length

/-- Number of executions of exactly the given command in a trace. -/
def countRun (cmd : List String) (t : List Effect) : Nat :=
  (t.filter (fun e => match e with | Effect.run c => c == cmd | _ => false)).length

/-- `writeBeforeRun w cmd t seen = true` iff every `run cmd` effect in
`t` is strictly preceded by a `writeFile w _` effect (`seen` records
whether such a write has already happened). -/
def writeBeforeRun (w : String) (cmd : List String) : List Effect → Bool → Bool
  | [], _ => true
  | Effect.run c :: es, seen => (!(c == cmd) || seen) && writeBeforeRun w cmd es seen
  | Effect.writeFile p _ :: es, seen => writeBeforeRun w cmd es (seen || p == w)
  | _ :: es, seen => writeBeforeRun w cmd es seen

/-- The write-seen flag after processing a trace. -/
def seenAfter (w : String) (t : List Effect) (s : Bool) : Bool :=
  t.foldl
    (fun acc e =>
      acc || (match e with | Effect.writeFile p _ => p == w | _ => false))
    s

/-! ### Ambient environment (collaborator results) -/

/-- The results of all external collaborator calls that the embedded
functions consult.  Fields marked "external" stand for functions of
`bredos.dt` / `bredos.utilities` that are outside this repository's
sources; their results are inputs of the embedding. -/
structure Env where
  /-- `dt.grub_exists()` (external). -/
  grub : Bool
  /-- `dt.extlinux_exists()` (external). -/
  ext : Bool
  /-- `dt.booted_with_edk()` (external). -/
  edk : Bool
  /-- `dt.uefi_overriden()` (external). -/
  uefiOverriden : Bool
  /-- The `DRYRUN` module global. -/
  dryrun : Bool
  /-- Keys of `dt.gencache()["base"]` (external): absolute paths of the
  discovered base blobs. -/
  cacheBase : List String
  /-- Keys of `dt.gencache()["overlays"]` (external). -/
  cacheOverlays : List String
  /-- `dt.parse_grub()` result (external). -/
  grubCfg : List (String × String)
  /-- Content of `/etc/default/u-boot` (input of `dt.parse_uboot`);
  `none` when the file is absent. -/
  ubootFile : Option String
  /-- `dt.detect_efidir()` (external). -/
  efidir : String
  /-- `utilities.ls(efidir + "/dtb/base/")` (external). -/
  efiBaseListing : List String
  /-- `utilities.ls(efidir + "/dtb/overlays/")` (external); `none` when
  the call raises (directory missing). -/
  efiOverlayListing : Option (List String)
  /-- The user's `c.confirm` answer. -/
  confirm : Bool
  /-- `dt.safe_exists("/usr/bin/u-boot-update")` (external). -/
  installed : Bool
  /-- `append` value of the first label stanza of
  `dt.parse_extlinux_conf(...)` (external), when present. -/
  labelAppend : Option String
  /-- `fdt` value of the first label stanza, when present. -/
  labelFdt : Option String
  /-- `fdtoverlays` list of the first label stanza, when present. -/
  labelFdtoverlays : Option (List String)

/-! ### `set_base_dtb` (src/sys-config.py lines 242-351) -/

/-- Lines 276-278: strip one leading `/boot/` prefix (six characters)
from the matched path, if present. -/
def stripBootPath (m : String) : String :=
  if strStartsWith m "/boot/" then strDropN m 6 else m

/-- The EFI-override command batch of `set_base_dtb` (lines 300-326):
remove the old base blobs, copy the matched blob in, copy the
fixed-table aliases when the normalized name has one, sync. -/
def efiBaseCmds (env : Env) (normalized matched : String) : List (List String) :=
  let listingStr := joinWords env.efiBaseListing
  let cmds := [["rm", "-v", listingStr],
               ["cp", "-v", matched, env.efidir ++ "/dtb/base/"]]
  let cmds := cmds ++
    (if normalized == "rk3588s-fydetab-duo.dtb" then
      [["cp", "-v", matched, env.efidir ++ "/dtb/base/rk3588s-tablet-12c-linux.dtb"]]
    else if normalized == "rk3588-rock-5b-plus.dtb" then
      [["cp", "-v", matched, env.efidir ++ "/dtb/base/rk3588-rock-5bp.dtb"]]
    else [])
  cmds ++ [["sync", env.efidir]]

/-- The GRUB half of `set_base_dtb`, EFI-override mode command batch as
above (lines 300-326). -/
def set_base_grub (env : Env) (normalized matched : String) : List Effect :=
  if env.uefiOverriden = false then
    let grubdtbn := stripBootPath matched
    let g2 := dictInsert env.grubCfg "GRUB_DTB" grubdtbn
    let enc := encode_grub g2
    (if env.dryrun = false then [Effect.writeFile "/etc/default/grub" enc]
     else [Effect.message
        ["The GRUB config would have been updated with the following:", "", enc]
        "DRYRUN Simulated Output"])
    ++ runnerEff env.dryrun ["grub-mkconfig", "-o", "/boot/grub/grub.cfg"]
  else
    mrunnerEff env.dryrun (efiBaseCmds env normalized matched)

/-- The U-Boot half of `set_base_dtb` (lines 328-351): set `U_BOOT_FDT`
to the normalized name, rewrite `/etc/default/u-boot`, trigger
`u-boot-update`. -/
def set_base_ext (env : Env) (normalized : String) : List Effect :=
  let extcfg := dictInsert (parse_uboot env.ubootFile) "U_BOOT_FDT" normalized
  let enc := encode_uboot extcfg
  (if env.dryrun = false then [Effect.writeFile "/etc/default/u-boot" enc]
   else [Effect.message
      ["The u-boot config would have been updated with the following:", "", enc]
      "DRYRUN Simulated Output"])
  ++ runnerEff env.dryrun ["u-boot-update"]

/-- Embeds `set_base_dtb` (lines 242-351).  Validation first: a `None`
argument and a name whose normalized form matches no cache entry each
produce an error message and return before any mutation; then the match
against the cache is resolved and both bootloader branches run. -/
def set_base_dtb (env : Env) (dtb : Option String) : List Effect :=
  match dtb with
  | none => [Effect.message ["Refusing to unset Base DTB!"] "ERROR"]
  | some d =>
    let bases := env.cacheBase.map (fun i => normalize_filename i "dtb")
    let normalized := normalize_filename d "dtb"
    if bases.contains normalized then
      match match_filename normalized env.cacheBase "dtb" with
      | none => [Effect.message ["Failed to match DTB!"] "ERROR"]
      | some matched =>
        (if env.grub then set_base_grub env normalized matched else [])
        ++ (if env.ext then set_base_ext env normalized else [])
    else
      [Effect.message ["DTB \"" ++ d ++ "\" not found on system, refusing to continue."]
        "ERROR"]

/-! ### `set_overlays` (src/sys-config.py lines 354-550) -/

/-- Control-flow outcome of a section of `set_overlays`: fall through to
the next section with the effects so far, return from the whole function
with the final effects, or raise a Python exception. -/
inductive PyFlow where
  | next (effects : List Effect)
  | done (effects : List Effect)
  | raise (err : String)
deriving DecidableEq, Repr

/-- Validation phase of `set_overlays` (lines 362-394): when overlays
were requested, normalize them into a set, check each against the
normalized overlay cache, then match each against the cache paths.
`Except.error` carries the early-return effects of a failed validation,
`Except.ok` the matched path set (insertion-ordered). -/
def overlay_validate (env : Env) (dtbos : List String) : Except (List Effect) (List String) :=
  if dtbos.isEmpty then Except.ok []
  else
    let normalized := dtbos.foldl
      (fun s i =>
        let n := normalize_filename i "dtbo"
        if s.contains n then s else s ++ [n]) []
    let overlays := env.cacheOverlays.map (fun i => normalize_filename i "dtbo")
    match normalized.find? (fun i => !(overlays.contains i)) with
    | some i =>
      Except.error [Effect.message
        ["Overlay \"" ++ i ++ "\" not found on system, refusing to continue."] "ERROR"]
    | none =>
      let matchedOpts := normalized.foldl
        (fun s i =>
          let m := match_filename i env.cacheOverlays "dtbo"
          if s.contains m then s else s ++ [m]) []
      if matchedOpts.contains none then
        Except.error [Effect.message
          ["Overlay \"None\" failed to match, refusing to continue."] "ERROR"]
      else Except.ok (matchedOpts.filterMap id)

/-- The GRUB section of `set_overlays` (lines 396-507).  When EFI
override is not yet enabled, the user is asked to confirm; on
confirmation the current `GRUB_DTB` base blob is copied into the newly
created override directories (with the same fixed alias table as
`set_base_dtb`), the `GRUB_DTB` key is deleted and GRUB regenerated.
Then the current overlay files are removed and the matched overlays
copied in.  The local Python variable `cmds` is only bound on the
confirm path or when the overlay listing is non-empty: an unbound `cmds`
at the final `mrunner(cmds)` (or at `cmds.append`) raises
`UnboundLocalError`, which is modelled by the `Option` being `none`. -/
def overlay_grub_part (env : Env) (matched : List String) : PyFlow :=
  if env.grub = false then PyFlow.next []
  else
    let step1 : PyFlow ⊕ (List Effect × Option (List (List String))) :=
      if env.uefiOverriden then Sum.inr ([], none)
      else if env.confirm = false then
        Sum.inl (PyFlow.done [Effect.message ["Cannot continue, returning."] "ABORTED"])
      else
        match dictLookup "GRUB_DTB" env.grubCfg with
        | none => Sum.inl (PyFlow.raise "KeyError: GRUB_DTB")
        | some gdtb =>
          let bnorm := normalize_filename gdtb "dtb"
          match match_filename bnorm env.cacheBase "dtb" with
          | none => Sum.inl (PyFlow.done [Effect.message ["Failed to match DTB!"] "ERROR"])
          | some bpath =>
            let cmds := [["mkdir", "-vp", env.efidir ++ "/dtb/base/", env.efidir ++ "/dtb/overlays/"],
                         ["cp", "-v", bpath, env.efidir ++ "/dtb/base/"]]
            let cmds := cmds ++
              (if bnorm == "rk3588s-fydetab-duo.dtb" then
                [["cp", "-v", bpath, env.efidir ++ "/dtb/base/rk3588s-tablet-12c-linux.dtb"]]
              else if bnorm == "rk3588-rock-5b-plus.dtb" then
                [["cp", "-v", bpath, env.efidir ++ "/dtb/base/rk3588-rock-5bp.dtb"]]
              else [])
            let cmds := cmds ++ [["sync", env.efidir]]
            let g2 := dictErase "GRUB_DTB" env.grubCfg
            let enc := encode_grub g2
            let effs := mrunnerEff env.dryrun cmds
              ++ (if env.dryrun = false then [Effect.writeFile "/etc/default/grub" enc]
                  else [Effect.message
                    ["The GRUB config would have been updated with the following:", "", enc]
                    "DRYRUN Simulated Output"])
              ++ runnerEff env.dryrun ["grub-mkconfig", "-o", "/boot/grub/grub.cfg"]
            Sum.inr (effs, some cmds)
    match step1 with
    | Sum.inl f => f
    | Sum.inr (effs1, cmds0) =>
      let listingRes : Option String :=
        match env.efiOverlayListing with
        | some l => some (joinWords l)
        | none => if env.dryrun then some "" else none
      match listingRes with
      | none => PyFlow.raise "utilities.ls raised"
      | some listingStr =>
        let cmds1 : Option (List (List String)) :=
          if listingStr == "" then cmds0 else some [["rm", "-v", listingStr]]
        match cmds1 with
        | none => PyFlow.raise "UnboundLocalError: cmds"
        | some cs =>
          let cs := cs ++ matched.map (fun d => ["cp", "-v", d, env.efidir ++ "/dtb/overlays/"])
          PyFlow.next (effs1 ++ mrunnerEff env.dryrun cs)

/-- The U-Boot section of `set_overlays` (lines 509-550): a non-empty
request re-normalizes and re-matches each name (returning on the first
failure), then stores the space-joined list under `U_BOOT_FDT_OVERLAYS`;
an empty request deletes the key.  Either way the config is re-encoded,
written, and `u-boot-update` triggered. -/
def overlay_ext_part (env : Env) (dtbos : List String) : PyFlow :=
  if env.ext = false then PyFlow.next []
  else
    let extcfg := parse_uboot env.ubootFile
    let step : PyFlow ⊕ (List (String × String)) :=
      if dtbos.isEmpty then Sum.inr (dictErase "U_BOOT_FDT_OVERLAYS" extcfg)
      else
        let nd := dtbos.map (fun i => normalize_filename i "dtbo")
        match nd.find? (fun d => (match_filename d env.cacheOverlays "dtbo").isNone) with
        | some d =>
          Sum.inl (PyFlow.done [Effect.message
            ["Overlay \"" ++ d ++ "\" not found on system, refusing to continue."] "ERROR"])
        | none => Sum.inr (dictInsert extcfg "U_BOOT_FDT_OVERLAYS" (joinWords nd))
    match step with
    | Sum.inl f => f
    | Sum.inr cfg2 =>
      let enc := encode_uboot cfg2
      let effs :=
        (if env.dryrun = false then [Effect.writeFile "/etc/default/u-boot" enc]
         else [Effect.message
            ["The u-boot config would have been updated with the following:", "", enc]
            "DRYRUN Simulated Output"])
        ++ runnerEff env.dryrun ["u-boot-update"]
      PyFlow.next effs

/-- Embeds `set_overlays` (lines 354-550): validation, then the GRUB
section, then the U-Boot section.  `Except.error` reports a Python
exception escaping the function. -/
def set_overlays (env : Env) (dtbos : List String) : Except String (List Effect) :=
  match overlay_validate env dtbos with
  | Except.error effs => Except.ok effs
  | Except.ok matched =>
    match overlay_grub_part env matched with
    | PyFlow.raise e => Except.error e
    | PyFlow.done effs => Except.ok effs
    | PyFlow.next effs1 =>
      match overlay_ext_part env dtbos with
      | PyFlow.raise e => Except.error e
      | PyFlow.done effs2 => Except.ok (effs1 ++ effs2)
      | PyFlow.next effs2 => Except.ok (effs1 ++ effs2)

/-! ### `uboot_migrator` (src/sys-config.py lines 691-773) -/

/-- The field-by-field translation of the first extlinux label stanza
into the U-Boot grammar (lines 729-750): set the migration marker and
fixed keys; store the `append` value with every `root=...` parameter
removed and stripped as `U_BOOT_PARAMETERS`; store the `fdt` basename as
`U_BOOT_FDT` (deleting the key when `fdt` is absent); store the
`fdtoverlays` list, normalized, space-joined, as
`U_BOOT_FDT_OVERLAYS`. -/
def uboot_translate (env : Env) (extcfg : List (String × String)) : List (String × String) :=
  let c1 := dictInsert extcfg "U_BOOT_IS_SETUP" "true"
  let c2 := dictInsert c1 "U_BOOT_MENU_LABEL" "BredOS"
  let c3 := dictInsert c2 "U_BOOT_COPY_DTB_TO_BOOT" "true"
  let c4 := match env.labelAppend with
    | some params => dictInsert c3 "U_BOOT_PARAMETERS" (stripStr (subRootStr params))
    | none => c3
  let c5 := match env.labelFdt with
    | some dtbv => dictInsert c4 "U_BOOT_FDT" (basenameStr dtbv)
    | none => dictErase "U_BOOT_FDT" c4
  match env.labelFdtoverlays with
  | some l =>
    dictInsert c5 "U_BOOT_FDT_OVERLAYS"
      (joinWords ((l.map (fun i => normalize_filename i "dtbo")).map (fun i => basenameStr i)))
  | none => c5

/-- Embeds `uboot_migrator` (lines 691-773).  Returns the effect trace
and the Python return value.  The current `/etc/default/u-boot` content
is passed explicitly so that consecutive runs can be chained.  On a
non-extlinux or EDK-booted system it returns `True` immediately; it
installs `u-boot-update` when missing; and it performs the migration
sub-flow only when the marker key equals `"false"` and the user
confirms. -/
def uboot_migrator (env : Env) (ubootFile : Option String) : List Effect × Bool :=
  if ((!env.ext) || env.edk) then ([], true)
  else
    let instEffs :=
      if env.installed then []
      else runnerEff env.dryrun ["sh", "-c", "pacman -Sy && pacman -S --noconfirm u-boot-update"]
    let extcfg := parse_uboot ubootFile
    if (dictLookup "U_BOOT_IS_SETUP" extcfg == some "false") = false then (instEffs, true)
    else if env.confirm = false then (instEffs, false)
    else
      let cfg2 := uboot_translate env extcfg
      let enc := encode_uboot cfg2
      let effs := instEffs
        ++ (if env.dryrun = false then [Effect.writeFile "/etc/default/u-boot" enc]
            else [Effect.message
              ["The U-Boot config would have been updated with the following:", "", enc]
              "DRYRUN Simulated Output"])
        ++ runnerEff env.dryrun ["u-boot-update"]
        ++ [Effect.message ["Migration complete!"] "U-Boot-Update Migrator"]
      (effs, true)

/-! ### `dt_manager` overlay-set computation (src/sys-config.py lines 867-890) -/

/-- The list passed to `set_overlays` by the CLI `overlay enable`
branch (lines 869-879): normalize the currently enabled overlays and the
requested names, then append each requested name not already present. -/
def dt_manager_enable_arg (existing requested : List String) : List String :=
  let e := existing.map (fun i => normalize_filename i "dtbo")
  let r := requested.map (fun i => normalize_filename i "dtbo")
  r.foldl (fun acc i => if acc.contains i then acc else acc ++ [i]) e

/-- The list passed to `set_overlays` by the CLI `overlay disable`
branch (lines 880-890): normalize both lists, then remove each requested
name that is present (Python `list.remove`: first occurrence). -/
def dt_manager_disable_arg (existing requested : List String) : List String :=
  let e := existing.map (fun i => normalize_filename i "dtbo")
  let r := requested.map (fun i => normalize_filename i "dtbo")
  r.foldl (fun acc i => if acc.contains i then acc.erase i else acc) e

/-- Well-formedness of a U-Boot config for the encode/parse round trip:
keys are non-empty, upper-case-fixed and free of whitespace; values are
free of newlines. -/
def wfUbootCfg (cfg : List (String × String)) : Bool :=
  cfg.all (fun kv =>
    (!kv.1.data.isEmpty) && kv.1.data.all (fun c => !(isWs c)) &&
    (upperStr kv.1 == kv.1) && kv.2.data.all (fun c => !(c == '\n')))

/-! ### Concrete instances used by witnesses and counterexamples -/

/-- The empty file system (no file present). -/
def emptyFs : String → Option String := fun _ => none

/-- A quiescent environment: no bootloader present, empty caches,
defaults everywhere.  Field order: grub, ext, edk, uefiOverriden,
dryrun, cacheBase, cacheOverlays, grubCfg, ubootFile, efidir,
efiBaseListing, efiOverlayListing, confirm, installed, labelAppend,
labelFdt, labelFdtoverlays. -/
def envBase : Env :=
  ⟨false, false, false, false, false, [], [], [], none, "/boot/efi", [], some [],
   true, true, none, none, none⟩

/-- Both bootloaders present, GRUB in config-variable mode, one cached
base blob. -/
def envBoth : Env :=
  ⟨true, true, false, false, false, ["/boot/dtbs/rockchip/rk3588-evb.dtb"], [],
   [("GRUB_CMDLINE_LINUX", "quiet")], none, "/boot/efi",
   ["/boot/efi/dtb/base/old.dtb"], some [], true, true, none, none, none⟩

/-- GRUB in EFI-override mode with the fydetab blob cached (exercises
the alias table). -/
def envEfi : Env :=
  ⟨true, false, false, true, false, ["/boot/dtbs/rockchip/rk3588s-fydetab-duo.dtb"], [],
   [], none, "/boot/efi", ["/boot/efi/dtb/base/old.dtb"], some [], true, true,
   none, none, none⟩

/-- A cache whose key carries a doubled `/boot/` prefix: the
single-strip of `set_base_dtb` then leaves a value that still starts
with `/boot/`. -/
def envDoubleBoot : Env :=
  ⟨true, false, false, false, false, ["/boot//boot/dtbs/rk3588-foo.dtb"], [],
   [], none, "/boot/efi", [], some [], true, true, none, none, none⟩

/-- GRUB in config-variable mode with an ordinarily-placed blob. -/
def envPlain : Env :=
  ⟨true, false, false, false, false, ["/boot/dtbs/rk3588-foo.dtb"], [],
   [], none, "/boot/efi", [], some [], true, true, none, none, none⟩

/-- An extlinux system ready for migration: marker still `"false"`
(absent file), legacy label stanza with `append`, `fdt` and
`fdtoverlays`. -/
def envMigrate : Env :=
  ⟨false, true, false, false, false, [], [], [], none, "/boot/efi", [], some [],
   true, true, some "root=UUID=abc rw quiet", some "/boot/dtbs/rockchip/rk3588-x.dtb",
   some ["/boot/dtbs/overlays/panthor.dtbo"]⟩

/-- EFI-override mode already enabled, overlay directory present but
empty, both bootloaders present: the input on which `set_overlays []`
hits the unbound local `cmds`. -/
def envEmptyOverlayDir : Env :=
  ⟨true, true, false, true, false, [], [], [], none, "/boot/efi", [], some [],
   true, true, none, none, none⟩

/-- EFI-override mode with one stale overlay file listed. -/
def envOverlayListed : Env :=
  ⟨true, true, false, true, false, [], [], [], none, "/boot/efi", [],
   some ["/boot/efi/dtb/overlays/stale.dtbo"], true, true, none, none, none⟩

/-! ### Dictionary lemmas -/

theorem dictLookup_cons_eq (k v : String) (l : List (String × String)) :
    dictLookup k ((k, v) :: l) = some v := by
  simp [dictLookup]

theorem dictLookup_cons_ne (k : String) (kv : String × String)
    (l : List (String × String)) (h : kv.1 ≠ k) :
    dictLookup k (kv :: l) = dictLookup k l := by
  simp [dictLookup, List.find?_cons_of_neg, h]

theorem dictLookup_map_overwrite (k v : String) :
    ∀ cfg : List (String × String), cfg.any (fun kv => kv.1 == k) = true →
      dictLookup k (cfg.map (fun kv => if kv.1 == k then (k, v) else kv)) = some v := by
  intro cfg
  induction cfg with
  | nil => intro h; simp at h
  | cons kv rest ih =>
    intro h
    by_cases h1 : kv.1 = k
    · simp [List.map_cons, h1, dictLookup_cons_eq]
    · have h2 : rest.any (fun kv => kv.1 == k) = true := by
        simpa [List.any_cons, h1] using h
      rw [List.map_cons, if_neg (by simpa using h1), dictLookup_cons_ne k kv _ h1]
      exact ih h2

theorem dictLookup_append_single (k v : String) :
    ∀ cfg : List (String × String), cfg.any (fun kv => kv.1 == k) = false →
      dictLookup k (cfg ++ [(k, v)]) = some v := by
  intro cfg
  induction cfg with
  | nil => intro _; simp [dictLookup]
  | cons kv rest ih =>
    intro h
    simp only [List.any_cons, Bool.or_eq_false_iff] at h
    have h1 : kv.1 ≠ k := by simpa using h.1
    rw [List.cons_append, dictLookup_cons_ne k kv _ h1]
    exact ih h.2

theorem dictLookup_insert_self (cfg : List (String × String)) (k v : String) :
    dictLookup k (dictInsert cfg k v) = some v := by
  unfold dictInsert
  cases h : cfg.any (fun kv => kv.1 == k) with
  | true => simp only [if_true]; exact dictLookup_map_overwrite k v cfg h
  | false =>
    simp only [Bool.false_eq_true, if_false]
    exact dictLookup_append_single k v cfg h

theorem dictLookup_cons_self (k : String) (kv : String × String)
    (l : List (String × String)) (h : kv.1 = k) :
    dictLookup k (kv :: l) = some kv.2 := by
  rw [dictLookup, List.find?_cons_of_pos _ (by simp [h])]
  rfl

theorem dictLookup_map_ne (k v k2 : String) (hne : k2 ≠ k) :
    ∀ cfg : List (String × String),
      dictLookup k2 (cfg.map (fun kv => if kv.1 == k then (k, v) else kv)) =
        dictLookup k2 cfg := by
  intro cfg
  induction cfg with
  | nil => rfl
  | cons kv rest ih =>
    by_cases h1 : kv.1 = k
    · rw [List.map_cons, if_pos (by simpa using h1),
        dictLookup_cons_ne k2 (k, v) _ (fun hc => hne hc.symm),
        dictLookup_cons_ne k2 kv _ (by rw [h1]; exact fun hc => hne hc.symm)]
      exact ih
    · rw [List.map_cons, if_neg (by simpa using h1)]
      by_cases h3 : kv.1 = k2
      · rw [dictLookup_cons_self k2 kv _ h3, dictLookup_cons_self k2 kv _ h3]
      · rw [dictLookup_cons_ne k2 kv _ h3, dictLookup_cons_ne k2 kv _ h3]
        exact ih

theorem dictLookup_append_single_ne (k v k2 : String) (hne : k2 ≠ k) :
    ∀ cfg : List (String × String),
      dictLookup k2 (cfg ++ [(k, v)]) = dictLookup k2 cfg := by
  intro cfg
  induction cfg with
  | nil =>
    rw [List.nil_append, dictLookup_cons_ne k2 (k, v) _ (fun hc => hne hc.symm)]
  | cons kv rest ih =>
    rw [List.cons_append]
    by_cases h3 : kv.1 = k2
    · rw [dictLookup_cons_self k2 kv _ h3, dictLookup_cons_self k2 kv _ h3]
    · rw [dictLookup_cons_ne k2 kv _ h3, dictLookup_cons_ne k2 kv _ h3]
      exact ih

theorem dictLookup_insert_ne (cfg : List (String × String)) (k v k2 : String)
    (hne : k2 ≠ k) : dictLookup k2 (dictInsert cfg k v) = dictLookup k2 cfg := by
  unfold dictInsert
  cases h : cfg.any (fun kv => kv.1 == k) with
  | true => simp only [if_true]; exact dictLookup_map_ne k v k2 hne cfg
  | false => simp only [Bool.false_eq_true, if_false]; exact dictLookup_append_single_ne k v k2 hne cfg

theorem dictLookup_erase_self (cfg : List (String × String)) (k : String) :
    dictLookup k (dictErase k cfg) = none := by
  induction cfg with
  | nil => rfl
  | cons kv rest ih =>
    by_cases h1 : kv.1 = k
    · simpa [dictErase, List.filter_cons, h1] using ih
    · rw [dictErase, List.filter_cons, if_pos (by simpa using h1)]
      rw [show List.filter (fun kv => kv.1 != k) rest = dictErase k rest from rfl,
        dictLookup_cons_ne k kv _ h1]
      exact ih

theorem dictLookup_erase_ne (cfg : List (String × String)) (k k2 : String)
    (hne : k2 ≠ k) : dictLookup k2 (dictErase k cfg) = dictLookup k2 cfg := by
  induction cfg with
  | nil => rfl
  | cons kv rest ih =>
    by_cases h1 : kv.1 = k
    · rw [dictErase, List.filter_cons, if_neg (by simpa using h1),
        show List.filter (fun kv => kv.1 != k) rest = dictErase k rest from rfl,
        dictLookup_cons_ne k2 kv _ (by rw [h1]; exact fun hc => hne hc.symm)]
      exact ih
    · rw [dictErase, List.filter_cons, if_pos (by simpa using h1),
        show List.filter (fun kv => kv.1 != k) rest = dictErase k rest from rfl]
      by_cases h3 : kv.1 = k2
      · rw [dictLookup_cons_self k2 kv _ h3, dictLookup_cons_self k2 kv _ h3]
      · rw [dictLookup_cons_ne k2 kv _ h3, dictLookup_cons_ne k2 kv _ h3]
        exact ih

/-! ### Small helper lemmas -/

theorem afterLastSlashL_append_slash (xs ys : List Char) :
    afterLastSlashL (xs ++ '/' :: ys) = afterLastSlashL ys := by
  unfold afterLastSlashL
  rw [List.foldl_append]
  rfl

theorem strAppend_left_cancel {s a b : String} (h : s ++ a = s ++ b) : a = b := by
  have hd : s.data ++ a.data = s.data ++ b.data := by
    rw [← String.data_append, ← String.data_append, h]
  have h2 := List.append_cancel_left hd
  cases a; cases b
  exact congrArg String.mk h2

/-! ### Claim C4: `normalize_filename` -/

/-- C4: `normalize_filename` maps both the full path
`"/boot/dtbs/vendor/rk3588-foo.dtb"` and the bare stem `"rk3588-foo"`
(with extension `"dtb"`) to `"rk3588-foo.dtb"`; for every input it takes
the basename (directories are irrelevant), strips the last extension (if
any) via `os.path.splitext`, and appends the forced extension. -/
theorem normalize_filename_spec :
    normalize_filename "/boot/dtbs/vendor/rk3588-foo.dtb" "dtb" = "rk3588-foo.dtb"
    ∧ normalize_filename "rk3588-foo" "dtb" = "rk3588-foo.dtb"
    ∧ (∀ p f e : String, normalize_filename (p ++ "/" ++ f) e = normalize_filename f e)
    ∧ (∀ f e : String, ∃ stem : List Char,
        (normalize_filename f e).data = stem ++ '.' :: e.data) := by
  refine ⟨by decide, by decide, ?_, fun f e => ⟨_, rfl⟩⟩
  intro p f e
  unfold normalize_filename
  have hdata : (p ++ "/" ++ f).data = p.data ++ '/' :: f.data := by
    rw [String.data_append, String.data_append, List.append_assoc]
    rfl
  rw [hdata, afterLastSlashL_append_slash]

/-! ### Claim C1: unknown name leaves the GRUB config untouched -/

/-- C1: if the normalized form of the requested name matches no
normalized base-cache entry, `set_base_dtb` only reports the descriptive
error and performs no mutation at all — in particular replaying its
trace over any file system leaves every file (the GRUB config included)
byte-identical. -/
theorem set_base_dtb_unknown_name_no_mutation (env : Env) (d : String)
    (h : (env.cacheBase.map (fun i => normalize_filename i "dtb")).contains
      (normalize_filename d "dtb") = false) :
    set_base_dtb env (some d) =
      [Effect.message ["DTB \"" ++ d ++ "\" not found on system, refusing to continue."]
        "ERROR"]
    ∧ ∀ fs : String → Option String, applyWrites fs (set_base_dtb env (some d)) = fs := by
  have h1 : set_base_dtb env (some d) =
      [Effect.message ["DTB \"" ++ d ++ "\" not found on system, refusing to continue."]
        "ERROR"] := by
    simp only [set_base_dtb, h, Bool.false_eq_true, if_false]
  exact ⟨h1, fun fs => by rw [h1]; rfl⟩

/-- Witness for C1 at a concrete cache and name. -/
theorem set_base_dtb_unknown_name_no_mutation_witness :
    ((envBoth.cacheBase.map (fun i => normalize_filename i "dtb")).contains
      (normalize_filename "missing-board" "dtb") = false)
    ∧ set_base_dtb envBoth (some "missing-board") =
      [Effect.message
        ["DTB \"missing-board\" not found on system, refusing to continue."] "ERROR"]
    ∧ applyWrites emptyFs (set_base_dtb envBoth (some "missing-board")) = emptyFs := by
  have h := set_base_dtb_unknown_name_no_mutation envBoth "missing-board" (by decide)
  exact ⟨by decide, h.1, h.2 emptyFs⟩

/-- On a validated name, `set_base_dtb` is the concatenation of the two
bootloader branches. -/
theorem set_base_dtb_valid (env : Env) (d m : String)
    (hmem : (env.cacheBase.map (fun i => normalize_filename i "dtb")).contains
      (normalize_filename d "dtb") = true)
    (hm : match_filename (normalize_filename d "dtb") env.cacheBase "dtb" = some m) :
    set_base_dtb env (some d) =
      (if env.grub then set_base_grub env (normalize_filename d "dtb") m else [])
      ++ (if env.ext then set_base_ext env (normalize_filename d "dtb") else []) := by
  simp only [set_base_dtb, hmem, if_true, hm]

/-! ### Claim C9 (corrected): the `GRUB_DTB` value strips `/boot/` once -/

/-- Counterexample to C9 as stated: with a cache path carrying a doubled
`/boot/` prefix, the value `set_base_dtb` stores under `GRUB_DTB` is
`"/boot/dtbs/rk3588-foo.dtb"`, which does begin with `"/boot/"` — only
one six-character prefix is ever stripped. -/
theorem grub_dtb_boot_prefix_counterexample :
    set_base_dtb envDoubleBoot (some "rk3588-foo") =
      [Effect.writeFile "/etc/default/grub"
        (encode_grub [("GRUB_DTB", "/boot/dtbs/rk3588-foo.dtb")]),
       Effect.run ["grub-mkconfig", "-o", "/boot/grub/grub.cfg"]]
    ∧ dictLookup "GRUB_DTB" [("GRUB_DTB", "/boot/dtbs/rk3588-foo.dtb")] =
        some "/boot/dtbs/rk3588-foo.dtb"
    ∧ strStartsWith "/boot/dtbs/rk3588-foo.dtb" "/boot/" = true := by
  refine ⟨by decide, by decide, by decide⟩

/-- C9 (amended): in GRUB config-variable mode, the value stored under
`GRUB_DTB` is the matched path with exactly one leading `/boot/`
(six-character) prefix stripped when present, and the path unchanged
otherwise.  (It can therefore still begin with `/boot/` when the matched
path begins with `/boot//boot/`.) -/
theorem grub_dtb_strip_once (env : Env) (d m : String)
    (hg : env.grub = true) (hov : env.uefiOverriden = false) (hd : env.dryrun = false)
    (hmem : (env.cacheBase.map (fun i => normalize_filename i "dtb")).contains
      (normalize_filename d "dtb") = true)
    (hm : match_filename (normalize_filename d "dtb") env.cacheBase "dtb" = some m) :
    Effect.writeFile "/etc/default/grub"
      (encode_grub (dictInsert env.grubCfg "GRUB_DTB" (stripBootPath m)))
      ∈ set_base_dtb env (some d)
    ∧ (strStartsWith m "/boot/" = true → stripBootPath m = strDropN m 6)
    ∧ (strStartsWith m "/boot/" = false → stripBootPath m = m) := by
  refine ⟨?_, fun h => by simp [stripBootPath, h], fun h => by simp [stripBootPath, h]⟩
  rw [set_base_dtb_valid env d m hmem hm]
  simp [hg, set_base_grub, hov, hd]

/-- Witness for the amended C9 at an ordinarily-placed blob. -/
theorem grub_dtb_strip_once_witness :
    Effect.writeFile "/etc/default/grub"
      (encode_grub (dictInsert envPlain.grubCfg "GRUB_DTB"
        (stripBootPath "/boot/dtbs/rk3588-foo.dtb")))
      ∈ set_base_dtb envPlain (some "rk3588-foo")
    ∧ stripBootPath "/boot/dtbs/rk3588-foo.dtb" =
        strDropN "/boot/dtbs/rk3588-foo.dtb" 6 := by
  have h := grub_dtb_strip_once envPlain "rk3588-foo" "/boot/dtbs/rk3588-foo.dtb"
    rfl rfl rfl (by decide) (by decide)
  exact ⟨h.1, h.2.1 (by decide)⟩

/-! ### Claim C7: both bootloaders present means both are updated -/

/-- C7: when both `grub_exists` and `extlinux_exists` hold, a validated
`set_base_dtb` updates both bootloaders: the U-Boot config is rewritten
with `U_BOOT_FDT` set to the normalized name (and that key does read
back as the normalized name) regardless of the GRUB mode, and the GRUB
side performs its own mutation (config-file write in config-variable
mode, the EFI override copy batch otherwise). -/
theorem set_base_dtb_updates_both (env : Env) (d m : String)
    (hg : env.grub = true) (he : env.ext = true) (hd : env.dryrun = false)
    (hmem : (env.cacheBase.map (fun i => normalize_filename i "dtb")).contains
      (normalize_filename d "dtb") = true)
    (hm : match_filename (normalize_filename d "dtb") env.cacheBase "dtb" = some m) :
    Effect.writeFile "/etc/default/u-boot"
      (encode_uboot (dictInsert (parse_uboot env.ubootFile) "U_BOOT_FDT"
        (normalize_filename d "dtb")))
      ∈ set_base_dtb env (some d)
    ∧ dictLookup "U_BOOT_FDT" (dictInsert (parse_uboot env.ubootFile) "U_BOOT_FDT"
        (normalize_filename d "dtb")) = some (normalize_filename d "dtb")
    ∧ (env.uefiOverriden = false →
        Effect.writeFile "/etc/default/grub"
          (encode_grub (dictInsert env.grubCfg "GRUB_DTB" (stripBootPath m)))
          ∈ set_base_dtb env (some d))
    ∧ (env.uefiOverriden = true →
        Effect.mrun (efiBaseCmds env (normalize_filename d "dtb") m)
          ∈ set_base_dtb env (some d)
        ∧ ["cp", "-v", m, env.efidir ++ "/dtb/base/"]
          ∈ efiBaseCmds env (normalize_filename d "dtb") m) := by
  refine ⟨?_, dictLookup_insert_self _ _ _, ?_, ?_⟩
  · rw [set_base_dtb_valid env d m hmem hm]
    simp [he, set_base_ext, hd]
  · intro hov
    rw [set_base_dtb_valid env d m hmem hm]
    simp [hg, set_base_grub, hov, hd]
  · intro hov
    constructor
    · rw [set_base_dtb_valid env d m hmem hm]
      simp [hg, set_base_grub, hov, hd, mrunnerEff]
    · simp [efiBaseCmds]

/-- Witness for C7: both bootloaders present, config-variable mode. -/
theorem set_base_dtb_updates_both_witness :
    Effect.writeFile "/etc/default/u-boot"
      (encode_uboot (dictInsert (parse_uboot envBoth.ubootFile) "U_BOOT_FDT"
        (normalize_filename "rk3588-evb" "dtb")))
      ∈ set_base_dtb envBoth (some "rk3588-evb")
    ∧ dictLookup "U_BOOT_FDT" (dictInsert (parse_uboot envBoth.ubootFile) "U_BOOT_FDT"
        (normalize_filename "rk3588-evb" "dtb")) =
        some (normalize_filename "rk3588-evb" "dtb")
    ∧ Effect.writeFile "/etc/default/grub"
        (encode_grub (dictInsert envBoth.grubCfg "GRUB_DTB"
          (stripBootPath "/boot/dtbs/rockchip/rk3588-evb.dtb")))
        ∈ set_base_dtb envBoth (some "rk3588-evb") := by
  have h := set_base_dtb_updates_both envBoth "rk3588-evb"
    "/boot/dtbs/rockchip/rk3588-evb.dtb" rfl rfl rfl (by decide) (by decide)
  exact ⟨h.1, h.2.1, h.2.2.1 rfl⟩

/-! ### Claim C6: EFI-override copy batch and the fixed alias table -/

theorem strAppend_ne_of_ne {s a b : String} (h : a ≠ b) : s ++ a ≠ s ++ b :=
  fun hc => h (strAppend_left_cancel hc)

/-- C6: in EFI-override mode a validated `set_base_dtb` issues exactly
the batch `efiBaseCmds`: it starts by removing the current base-blob
files, copies the matched blob into `dtb/base/`, additionally copies the
blob under the alias `rk3588s-tablet-12c-linux.dtb` exactly when the
normalized name is `rk3588s-fydetab-duo.dtb` and under
`rk3588-rock-5bp.dtb` exactly when it is `rk3588-rock-5b-plus.dtb`, and
for any other name the batch is just remove, copy, sync — no aliasing. -/
theorem set_base_dtb_efi_alias_table (env : Env) (d m : String)
    (hg : env.grub = true) (hov : env.uefiOverriden = true) (hd : env.dryrun = false)
    (hmem : (env.cacheBase.map (fun i => normalize_filename i "dtb")).contains
      (normalize_filename d "dtb") = true)
    (hm : match_filename (normalize_filename d "dtb") env.cacheBase "dtb" = some m) :
    Effect.mrun (efiBaseCmds env (normalize_filename d "dtb") m)
      ∈ set_base_dtb env (some d)
    ∧ (efiBaseCmds env (normalize_filename d "dtb") m).head? =
        some ["rm", "-v", joinWords env.efiBaseListing]
    ∧ ["cp", "-v", m, env.efidir ++ "/dtb/base/"]
        ∈ efiBaseCmds env (normalize_filename d "dtb") m
    ∧ (["cp", "-v", m, env.efidir ++ "/dtb/base/rk3588s-tablet-12c-linux.dtb"]
        ∈ efiBaseCmds env (normalize_filename d "dtb") m
        ↔ normalize_filename d "dtb" = "rk3588s-fydetab-duo.dtb")
    ∧ (["cp", "-v", m, env.efidir ++ "/dtb/base/rk3588-rock-5bp.dtb"]
        ∈ efiBaseCmds env (normalize_filename d "dtb") m
        ↔ normalize_filename d "dtb" = "rk3588-rock-5b-plus.dtb")
    ∧ (normalize_filename d "dtb" ≠ "rk3588s-fydetab-duo.dtb" →
       normalize_filename d "dtb" ≠ "rk3588-rock-5b-plus.dtb" →
        efiBaseCmds env (normalize_filename d "dtb") m =
          [["rm", "-v", joinWords env.efiBaseListing],
           ["cp", "-v", m, env.efidir ++ "/dtb/base/"],
           ["sync", env.efidir]]) := by
  have hset : Effect.mrun (efiBaseCmds env (normalize_filename d "dtb") m)
      ∈ set_base_dtb env (some d) := by
    rw [set_base_dtb_valid env d m hmem hm]
    simp [hg, set_base_grub, hov, hd, mrunnerEff]
  have hne1 : env.efidir ++ "/dtb/base/rk3588s-tablet-12c-linux.dtb" ≠
      env.efidir ++ "/dtb/base/" := strAppend_ne_of_ne (by decide)
  have hne2 : env.efidir ++ "/dtb/base/rk3588-rock-5bp.dtb" ≠
      env.efidir ++ "/dtb/base/" := strAppend_ne_of_ne (by decide)
  have hne3 : env.efidir ++ "/dtb/base/rk3588s-tablet-12c-linux.dtb" ≠
      env.efidir ++ "/dtb/base/rk3588-rock-5bp.dtb" := strAppend_ne_of_ne (by decide)
  by_cases hA : normalize_filename d "dtb" = "rk3588s-fydetab-duo.dtb"
  · have hAB : normalize_filename d "dtb" ≠ "rk3588-rock-5b-plus.dtb" := by
      rw [hA]; decide
    have hcmds : efiBaseCmds env (normalize_filename d "dtb") m =
        [["rm", "-v", joinWords env.efiBaseListing],
         ["cp", "-v", m, env.efidir ++ "/dtb/base/"],
         ["cp", "-v", m, env.efidir ++ "/dtb/base/rk3588s-tablet-12c-linux.dtb"],
         ["sync", env.efidir]] := by
      simp [efiBaseCmds, hA]
    refine ⟨hset, by simp [hcmds], by simp [hcmds], ?_, ?_, fun h _ => absurd hA h⟩
    · rw [hcmds]
      simp only [List.mem_cons, List.not_mem_nil, or_false]
      constructor
      · intro _; exact hA
      · intro _
        right; right; left; trivial
    · rw [hcmds]
      constructor
      · intro hmem2
        simp only [List.mem_cons, List.not_mem_nil, or_false] at hmem2
        rcases hmem2 with h | h | h | h
        · simp at h
        · simp at h
          exact absurd h hne2
        · simp at h
          exact absurd h hne3.symm
        · simp at h
      · intro h
        exact absurd h hAB
  · by_cases hB : normalize_filename d "dtb" = "rk3588-rock-5b-plus.dtb"
    · have hcmds : efiBaseCmds env (normalize_filename d "dtb") m =
          [["rm", "-v", joinWords env.efiBaseListing],
           ["cp", "-v", m, env.efidir ++ "/dtb/base/"],
           ["cp", "-v", m, env.efidir ++ "/dtb/base/rk3588-rock-5bp.dtb"],
           ["sync", env.efidir]] := by
        simp [efiBaseCmds, hA, hB]
      refine ⟨hset, by simp [hcmds], by simp [hcmds], ?_, ?_, fun _ h => absurd hB h⟩
      · rw [hcmds]
        constructor
        · intro hmem2
          simp only [List.mem_cons, List.not_mem_nil, or_false] at hmem2
          rcases hmem2 with h | h | h | h
          · simp at h
          · simp at h
            exact absurd h hne1
          · simp at h
            exact absurd h hne3
          · simp at h
        · intro h
          exact absurd h hA
      · rw [hcmds]
        simp only [List.mem_cons, List.not_mem_nil, or_false]
        constructor
        · intro _; exact hB
        · intro _
          right; right; left; trivial
    · have hcmds : efiBaseCmds env (normalize_filename d "dtb") m =
          [["rm", "-v", joinWords env.efiBaseListing],
           ["cp", "-v", m, env.efidir ++ "/dtb/base/"],
           ["sync", env.efidir]] := by
        simp [efiBaseCmds, hA, hB]
      refine ⟨hset, by simp [hcmds], by simp [hcmds], ?_, ?_, fun _ _ => hcmds⟩
      · rw [hcmds]
        constructor
        · intro hmem2
          simp only [List.mem_cons, List.not_mem_nil, or_false] at hmem2
          rcases hmem2 with h | h | h
          · simp at h
          · simp at h
            exact absurd h hne1
          · simp at h
        · intro h
          exact absurd h hA
      · rw [hcmds]
        constructor
        · intro hmem2
          simp only [List.mem_cons, List.not_mem_nil, or_false] at hmem2
          rcases hmem2 with h | h | h
          · simp at h
          · simp at h
            exact absurd h hne2
          · simp at h
        · intro h
          exact absurd h hB

/-- Witness for C6: the fydetab blob gets its fixed-table alias copy. -/
theorem set_base_dtb_efi_alias_table_witness :
    Effect.mrun (efiBaseCmds envEfi (normalize_filename "rk3588s-fydetab-duo" "dtb")
        "/boot/dtbs/rockchip/rk3588s-fydetab-duo.dtb")
      ∈ set_base_dtb envEfi (some "rk3588s-fydetab-duo")
    ∧ ["cp", "-v", "/boot/dtbs/rockchip/rk3588s-fydetab-duo.dtb",
        envEfi.efidir ++ "/dtb/base/rk3588s-tablet-12c-linux.dtb"]
      ∈ efiBaseCmds envEfi (normalize_filename "rk3588s-fydetab-duo" "dtb")
        "/boot/dtbs/rockchip/rk3588s-fydetab-duo.dtb" := by
  have h := set_base_dtb_efi_alias_table envEfi "rk3588s-fydetab-duo"
    "/boot/dtbs/rockchip/rk3588s-fydetab-duo.dtb" rfl rfl rfl (by decide) (by decide)
  exact ⟨h.1, (h.2.2.2.1).mpr (by decide)⟩

/-! ### Claim C3: config writes precede regeneration triggers -/

theorem writeBeforeRun_nil (w : String) (cmd : List String) (s : Bool) :
    writeBeforeRun w cmd [] s = true := rfl

theorem writeBeforeRun_run (w : String) (cmd c : List String) (es : List Effect) (s : Bool) :
    writeBeforeRun w cmd (Effect.run c :: es) s =
      (((!(c == cmd)) || s) && writeBeforeRun w cmd es s) := rfl

theorem writeBeforeRun_write (w : String) (cmd : List String) (p c : String)
    (es : List Effect) (s : Bool) :
    writeBeforeRun w cmd (Effect.writeFile p c :: es) s =
      writeBeforeRun w cmd es (s || p == w) := rfl

theorem writeBeforeRun_message (w : String) (cmd : List String) (t : List String)
    (ti : String) (es : List Effect) (s : Bool) :
    writeBeforeRun w cmd (Effect.message t ti :: es) s = writeBeforeRun w cmd es s := rfl

theorem writeBeforeRun_mrun (w : String) (cmd : List String) (cs : List (List String))
    (es : List Effect) (s : Bool) :
    writeBeforeRun w cmd (Effect.mrun cs :: es) s = writeBeforeRun w cmd es s := rfl

theorem writeBeforeRun_dryrunMsg (w : String) (cmd : List String) (m : String)
    (es : List Effect) (s : Bool) :
    writeBeforeRun w cmd (Effect.dryrunMsg m :: es) s = writeBeforeRun w cmd es s := rfl

theorem writeBeforeRun_append (w : String) (cmd : List String) (a b : List Effect)
    (s : Bool) :
    writeBeforeRun w cmd (a ++ b) s =
      (writeBeforeRun w cmd a s && writeBeforeRun w cmd b (seenAfter w a s)) := by
  induction a generalizing s with
  | nil => simp [writeBeforeRun_nil, seenAfter]
  | cons e a ih =>
    cases e with
    | run c =>
      rw [List.cons_append, writeBeforeRun_run, writeBeforeRun_run, ih,
        Bool.and_assoc]
      congr 1
      simp [seenAfter]
    | writeFile p c =>
      rw [List.cons_append, writeBeforeRun_write, writeBeforeRun_write, ih]
      congr 1
    | message t ti =>
      rw [List.cons_append, writeBeforeRun_message, writeBeforeRun_message, ih]
      congr 1
      simp [seenAfter]
    | mrun cs =>
      rw [List.cons_append, writeBeforeRun_mrun, writeBeforeRun_mrun, ih]
      congr 1
      simp [seenAfter]
    | dryrunMsg m =>
      rw [List.cons_append, writeBeforeRun_dryrunMsg, writeBeforeRun_dryrunMsg, ih]
      congr 1
      simp [seenAfter]

theorem wbr_grub_set_base_grub (env : Env) (n m : String) (s : Bool) :
    writeBeforeRun "/etc/default/grub" ["grub-mkconfig", "-o", "/boot/grub/grub.cfg"]
      (set_base_grub env n m) s = true := by
  cases hov : env.uefiOverriden <;> cases hd : env.dryrun <;>
    simp [set_base_grub, hov, hd, runnerEff, mrunnerEff, writeBeforeRun_write,
      writeBeforeRun_run, writeBeforeRun_nil, writeBeforeRun_message,
      writeBeforeRun_mrun, writeBeforeRun_dryrunMsg]

theorem wbr_uboot_set_base_grub (env : Env) (n m : String) (s : Bool) :
    writeBeforeRun "/etc/default/u-boot" ["u-boot-update"]
      (set_base_grub env n m) s = true := by
  have h1 : ((["grub-mkconfig", "-o", "/boot/grub/grub.cfg"] : List String) ==
      ["u-boot-update"]) = false := by decide
  cases hov : env.uefiOverriden <;> cases hd : env.dryrun <;>
    simp [set_base_grub, hov, hd, runnerEff, mrunnerEff, writeBeforeRun_write,
      writeBeforeRun_run, writeBeforeRun_nil, writeBeforeRun_message,
      writeBeforeRun_mrun, writeBeforeRun_dryrunMsg, h1]

theorem wbr_uboot_set_base_ext (env : Env) (n : String) (s : Bool) :
    writeBeforeRun "/etc/default/u-boot" ["u-boot-update"]
      (set_base_ext env n) s = true := by
  cases hd : env.dryrun <;>
    simp [set_base_ext, hd, runnerEff, writeBeforeRun_write, writeBeforeRun_run,
      writeBeforeRun_nil, writeBeforeRun_message, writeBeforeRun_dryrunMsg]

theorem wbr_grub_set_base_ext (env : Env) (n : String) (s : Bool) :
    writeBeforeRun "/etc/default/grub" ["grub-mkconfig", "-o", "/boot/grub/grub.cfg"]
      (set_base_ext env n) s = true := by
  have h1 : ((["u-boot-update"] : List String) ==
      ["grub-mkconfig", "-o", "/boot/grub/grub.cfg"]) = false := by decide
  cases hd : env.dryrun <;>
    simp [set_base_ext, hd, runnerEff, writeBeforeRun_write, writeBeforeRun_run,
      writeBeforeRun_nil, writeBeforeRun_message, writeBeforeRun_dryrunMsg, h1]

/-- C3: in every execution of `set_base_dtb`, `grub-mkconfig` is only
ever invoked after `/etc/default/grub` has been written, and
`u-boot-update` only after `/etc/default/u-boot` has been written — the
regeneration command is never run before the mutation for its
bootloader. -/
theorem set_base_dtb_write_before_trigger (env : Env) (dtb : Option String) :
    writeBeforeRun "/etc/default/grub" ["grub-mkconfig", "-o", "/boot/grub/grub.cfg"]
      (set_base_dtb env dtb) false = true
    ∧ writeBeforeRun "/etc/default/u-boot" ["u-boot-update"]
      (set_base_dtb env dtb) false = true := by
  cases dtb with
  | none => exact ⟨rfl, rfl⟩
  | some d =>
    cases hb : (env.cacheBase.map (fun i => normalize_filename i "dtb")).contains
        (normalize_filename d "dtb") with
    | false =>
      have h1 : set_base_dtb env (some d) =
          [Effect.message
            ["DTB \"" ++ d ++ "\" not found on system, refusing to continue."] "ERROR"] := by
        simp only [set_base_dtb, hb, Bool.false_eq_true, if_false]
      rw [h1]
      exact ⟨rfl, rfl⟩
    | true =>
      cases hm : match_filename (normalize_filename d "dtb") env.cacheBase "dtb" with
      | none =>
        have h1 : set_base_dtb env (some d) =
            [Effect.message ["Failed to match DTB!"] "ERROR"] := by
          simp only [set_base_dtb, hb, if_true, hm]
        rw [h1]
        exact ⟨rfl, rfl⟩
      | some m =>
        rw [set_base_dtb_valid env d m hb hm]
        constructor
        · rw [writeBeforeRun_append, Bool.and_eq_true]
          constructor
          · cases hg : env.grub <;>
              simp [hg, writeBeforeRun_nil, wbr_grub_set_base_grub]
          · cases he : env.ext <;>
              simp [he, writeBeforeRun_nil, wbr_grub_set_base_ext]
        · rw [writeBeforeRun_append, Bool.and_eq_true]
          constructor
          · cases hg : env.grub <;>
              simp [hg, writeBeforeRun_nil, wbr_uboot_set_base_grub]
          · cases he : env.ext <;>
              simp [he, writeBeforeRun_nil, wbr_uboot_set_base_ext]

/-! ### Claim C8: CLI overlay enable / disable set computation -/

theorem enableFold_structure (r : List String) :
    ∀ acc : List String, ∃ t,
      r.foldl (fun acc i => if acc.contains i then acc else acc ++ [i]) acc = acc ++ t := by
  induction r with
  | nil => intro acc; exact ⟨[], by simp⟩
  | cons i r ih =>
    intro acc
    by_cases hc : acc.contains i = true
    · rw [List.foldl_cons, if_pos hc]
      exact ih acc
    · rw [List.foldl_cons, if_neg hc]
      obtain ⟨t, ht⟩ := ih (acc ++ [i])
      refine ⟨[i] ++ t, ?_⟩
      rw [ht, List.append_assoc]

theorem enableFold_mem (r : List String) :
    ∀ (acc : List String) (x : String),
      (x ∈ r.foldl (fun acc i => if acc.contains i then acc else acc ++ [i]) acc
        ↔ x ∈ acc ∨ x ∈ r) := by
  induction r with
  | nil => intro acc x; simp
  | cons i r ih =>
    intro acc x
    by_cases hc : acc.contains i = true
    · have hi : i ∈ acc := by
        rw [← List.elem_iff]; exact hc
      rw [List.foldl_cons, if_pos hc, ih acc x, List.mem_cons]
      constructor
      · rintro (h | h)
        · exact Or.inl h
        · exact Or.inr (Or.inr h)
      · rintro (h | h | h)
        · exact Or.inl h
        · exact Or.inl (h ▸ hi)
        · exact Or.inr h
    · rw [List.foldl_cons, if_neg hc, ih (acc ++ [i]) x, List.mem_append,
        List.mem_singleton, List.mem_cons]
      tauto

theorem disableFold_mem (r : List String) :
    ∀ acc : List String, acc.Nodup → ∀ x : String,
      (x ∈ r.foldl (fun acc i => if acc.contains i then acc.erase i else acc) acc
        ↔ x ∈ acc ∧ x ∉ r) := by
  induction r with
  | nil => intro acc _ x; simp
  | cons i r ih =>
    intro acc hnd x
    by_cases hc : acc.contains i = true
    · rw [List.foldl_cons, if_pos hc, ih (acc.erase i) (hnd.erase i) x,
        hnd.mem_erase_iff, List.mem_cons]
      tauto
    · have hi : i ∉ acc := by
        rw [← List.elem_iff]; exact hc
      rw [List.foldl_cons, if_neg hc, ih acc hnd x, List.mem_cons]
      constructor
      · rintro ⟨hx, hr⟩
        exact ⟨hx, by rintro (h | h); exact hi (h ▸ hx); exact hr h⟩
      · rintro ⟨hx, hr⟩
        exact ⟨hx, fun h => hr (Or.inr h)⟩

/-- C8: the list the CLI `overlay enable` branch passes to
`set_overlays` is the normalized currently-enabled list with each
requested normalized name appended when not already present — the
enabled list is kept as an untouched prefix and the elements are exactly
the union; and the list the `overlay disable` branch passes is the
normalized enabled list with each requested normalized name removed —
when the normalized enabled list has no duplicates its elements are
exactly the set difference. -/
theorem dt_manager_overlay_args (existing requested : List String)
    (hnd : (existing.map (fun i => normalize_filename i "dtbo")).Nodup) :
    (∃ t, dt_manager_enable_arg existing requested =
      existing.map (fun i => normalize_filename i "dtbo") ++ t)
    ∧ (∀ x, x ∈ dt_manager_enable_arg existing requested ↔
        x ∈ existing.map (fun i => normalize_filename i "dtbo")
        ∨ x ∈ requested.map (fun i => normalize_filename i "dtbo"))
    ∧ (∀ x, x ∈ dt_manager_disable_arg existing requested ↔
        x ∈ existing.map (fun i => normalize_filename i "dtbo")
        ∧ x ∉ requested.map (fun i => normalize_filename i "dtbo")) := by
  refine ⟨?_, ?_, ?_⟩
  · exact enableFold_structure _ _
  · intro x
    exact enableFold_mem _ _ x
  · intro x
    exact disableFold_mem _ _ hnd x

/-- Witness for C8 on concrete lists: enabling `b` keeps `a.dtbo` and
adds `b.dtbo`; disabling `a` removes exactly `a.dtbo`. -/
theorem dt_manager_overlay_args_witness :
    (("b.dtbo" ∈ dt_manager_enable_arg ["/x/a.dtbo"] ["b"]) ↔
      ("b.dtbo" ∈ (["/x/a.dtbo"].map (fun i => normalize_filename i "dtbo"))
        ∨ "b.dtbo" ∈ (["b"].map (fun i => normalize_filename i "dtbo"))))
    ∧ (("a.dtbo" ∈ dt_manager_disable_arg ["/x/a.dtbo"] ["a"]) ↔
      ("a.dtbo" ∈ (["/x/a.dtbo"].map (fun i => normalize_filename i "dtbo"))
        ∧ "a.dtbo" ∉ (["a"].map (fun i => normalize_filename i "dtbo")))) := by
  have h := dt_manager_overlay_args ["/x/a.dtbo"] ["b"] (by decide)
  have h2 := dt_manager_overlay_args ["/x/a.dtbo"] ["a"] (by decide)
  exact ⟨h.2.1 "b.dtbo", h2.2.2 "a.dtbo"⟩

/-! ### Claim C5: the migration translates field by field -/

/-- Under the migration conditions (extlinux present, not EDK-booted,
marker `"false"`, user confirmed), `uboot_migrator` reduces to the
translation trace. -/
theorem uboot_migrator_migrates (env : Env) (file : Option String)
    (he : env.ext = true) (hk : env.edk = false) (hc : env.confirm = true)
    (hm : dictLookup "U_BOOT_IS_SETUP" (parse_uboot file) = some "false") :
    uboot_migrator env file =
      ((if env.installed then []
        else runnerEff env.dryrun
          ["sh", "-c", "pacman -Sy && pacman -S --noconfirm u-boot-update"])
       ++ (if env.dryrun = false then
            [Effect.writeFile "/etc/default/u-boot"
              (encode_uboot (uboot_translate env (parse_uboot file)))]
          else [Effect.message
            ["The U-Boot config would have been updated with the following:", "",
             encode_uboot (uboot_translate env (parse_uboot file))]
            "DRYRUN Simulated Output"])
       ++ runnerEff env.dryrun ["u-boot-update"]
       ++ [Effect.message ["Migration complete!"] "U-Boot-Update Migrator"], true) := by
  simp only [uboot_migrator, he, hk, Bool.not_true, Bool.false_or, Bool.false_eq_true,
    if_false, hm, beq_self_eq_true, if_true, hc, List.append_assoc]
  simp

/-- C5: when the migration sub-flow runs, the config written to
`/etc/default/u-boot` is the field-by-field translation: the first label
stanza's `append` value, with every `root=<value>` parameter removed and
surrounding whitespace stripped, becomes `U_BOOT_PARAMETERS`; the `fdt`
value's basename becomes `U_BOOT_FDT` (the key is absent when `fdt` is
absent); and the `fdtoverlays` list becomes `U_BOOT_FDT_OVERLAYS` as a
space-joined list of normalized basenames. -/
theorem uboot_migrator_translation (env : Env) (file : Option String)
    (he : env.ext = true) (hk : env.edk = false) (hd : env.dryrun = false)
    (hc : env.confirm = true)
    (hm : dictLookup "U_BOOT_IS_SETUP" (parse_uboot file) = some "false") :
    Effect.writeFile "/etc/default/u-boot"
      (encode_uboot (uboot_translate env (parse_uboot file)))
      ∈ (uboot_migrator env file).1
    ∧ (∀ p, env.labelAppend = some p →
        dictLookup "U_BOOT_PARAMETERS" (uboot_translate env (parse_uboot file)) =
          some (stripStr (subRootStr p)))
    ∧ (∀ dtbv, env.labelFdt = some dtbv →
        dictLookup "U_BOOT_FDT" (uboot_translate env (parse_uboot file)) =
          some (basenameStr dtbv))
    ∧ (env.labelFdt = none →
        dictLookup "U_BOOT_FDT" (uboot_translate env (parse_uboot file)) = none)
    ∧ (∀ l, env.labelFdtoverlays = some l →
        dictLookup "U_BOOT_FDT_OVERLAYS" (uboot_translate env (parse_uboot file)) =
          some (joinWords ((l.map (fun i => normalize_filename i "dtbo")).map
            (fun i => basenameStr i)))) := by
  refine ⟨?_, ?_, ?_, ?_, ?_⟩
  · rw [uboot_migrator_migrates env file he hk hc hm, hd]
    simp
  · intro p hp
    unfold uboot_translate
    rw [hp]
    cases hf : env.labelFdt with
    | some dtbv =>
      cases ho : env.labelFdtoverlays with
      | some l =>
        rw [dictLookup_insert_ne _ _ _ _ (by decide),
          dictLookup_insert_ne _ _ _ _ (by decide), dictLookup_insert_self]
      | none =>
        rw [dictLookup_insert_ne _ _ _ _ (by decide), dictLookup_insert_self]
    | none =>
      cases ho : env.labelFdtoverlays with
      | some l =>
        rw [dictLookup_insert_ne _ _ _ _ (by decide),
          dictLookup_erase_ne _ _ _ (by decide), dictLookup_insert_self]
      | none =>
        rw [dictLookup_erase_ne _ _ _ (by decide), dictLookup_insert_self]
  · intro dtbv hf
    unfold uboot_translate
    rw [hf]
    cases ho : env.labelFdtoverlays with
    | some l =>
      cases ha : env.labelAppend <;>
        rw [dictLookup_insert_ne _ _ _ _ (by decide), dictLookup_insert_self]
    | none =>
      cases ha : env.labelAppend <;>
        rw [dictLookup_insert_self]
  · intro hf
    unfold uboot_translate
    rw [hf]
    cases ho : env.labelFdtoverlays with
    | some l =>
      cases ha : env.labelAppend <;>
        rw [dictLookup_insert_ne _ _ _ _ (by decide), dictLookup_erase_self]
    | none =>
      cases ha : env.labelAppend <;>
        rw [dictLookup_erase_self]
  · intro l ho
    unfold uboot_translate
    rw [ho]
    cases hf : env.labelFdt <;> cases ha : env.labelAppend <;>
      rw [dictLookup_insert_self]

/-- Witness for C5 on a concrete legacy config. -/
theorem uboot_migrator_translation_witness :
    Effect.writeFile "/etc/default/u-boot"
      (encode_uboot (uboot_translate envMigrate (parse_uboot none)))
      ∈ (uboot_migrator envMigrate none).1
    ∧ dictLookup "U_BOOT_PARAMETERS" (uboot_translate envMigrate (parse_uboot none)) =
        some (stripStr (subRootStr "root=UUID=abc rw quiet"))
    ∧ stripStr (subRootStr "root=UUID=abc rw quiet") = "rw quiet"
    ∧ dictLookup "U_BOOT_FDT" (uboot_translate envMigrate (parse_uboot none)) =
        some (basenameStr "/boot/dtbs/rockchip/rk3588-x.dtb")
    ∧ basenameStr "/boot/dtbs/rockchip/rk3588-x.dtb" = "rk3588-x.dtb"
    ∧ dictLookup "U_BOOT_FDT_OVERLAYS" (uboot_translate envMigrate (parse_uboot none)) =
        some "panthor.dtbo" := by
  have h := uboot_migrator_translation envMigrate none rfl rfl rfl rfl (by decide)
  refine ⟨h.1, h.2.1 _ rfl, by decide, h.2.2.1 _ rfl, by decide, ?_⟩
  have h2 := h.2.2.2.2 ["/boot/dtbs/overlays/panthor.dtbo"] rfl
  rw [h2]
  decide

/-! ### Claim C10: `set_overlays []` and the unbound `cmds` local -/

/-- C10 evaluation: with EFI override already enabled and an *empty*
`dtb/overlays/` directory (and both bootloaders present),
`set_overlays []` raises `UnboundLocalError` at `mrunner(cmds)` — the
local `cmds` is only bound on the not-yet-overridden path or when the
overlay listing is non-empty — so the U-Boot branch (the
`U_BOOT_FDT_OVERLAYS` deletion) is never reached.  With a non-empty
overlay listing the claimed behaviour does occur: the listed files are
removed, nothing is copied back, and the U-Boot config is rewritten with
the `U_BOOT_FDT_OVERLAYS` key deleted. -/
theorem set_overlays_empty_unbound_cmds :
    set_overlays envEmptyOverlayDir [] = Except.error "UnboundLocalError: cmds"
    ∧ set_overlays envOverlayListed [] = Except.ok
        [Effect.mrun [["rm", "-v", "/boot/efi/dtb/overlays/stale.dtbo"]],
         Effect.writeFile "/etc/default/u-boot"
           (encode_uboot (dictErase "U_BOOT_FDT_OVERLAYS" (parse_uboot none))),
         Effect.run ["u-boot-update"]]
    ∧ dictLookup "U_BOOT_FDT_OVERLAYS"
        (dictErase "U_BOOT_FDT_OVERLAYS" (parse_uboot none)) = none := by
  refine ⟨rfl, rfl, rfl⟩

/-! ### Claim C2: the migration is idempotent -/

theorem splitLinesL_no_nl : ∀ l : List Char,
    (∀ c ∈ l, (c == '\n') = false) → splitLinesL l = [l] := by
  intro l
  induction l with
  | nil => intro _; rfl
  | cons c cs ih =>
    intro h
    have hc : (c == '\n') = false := h c (List.mem_cons_self c cs)
    have hcs := ih (fun x hx => h x (List.mem_cons_of_mem c hx))
    simp [splitLinesL, hc, hcs]

theorem splitLinesL_append_nl (r : List Char) : ∀ l : List Char,
    (∀ c ∈ l, (c == '\n') = false) →
    splitLinesL (l ++ '\n' :: r) = l :: splitLinesL r := by
  intro l
  induction l with
  | nil => intro _; simp [splitLinesL]
  | cons c cs ih =>
    intro h
    have hc : (c == '\n') = false := h c (List.mem_cons_self c cs)
    have hcs := ih (fun x hx => h x (List.mem_cons_of_mem c hx))
    simp [splitLinesL, hc, hcs]

theorem takeWhile_nonWs_append (s : Char) (hs : isWs s = true) (rest : List Char) :
    ∀ k : List Char, (∀ c ∈ k, isWs c = false) →
      (k ++ s :: rest).takeWhile (fun c => !(isWs c)) = k := by
  intro k
  induction k with
  | nil => intro _; simp [List.takeWhile_cons, hs]
  | cons c cs ih =>
    intro h
    have hc : isWs c = false := h c (List.mem_cons_self c cs)
    have hcs := ih (fun x hx => h x (List.mem_cons_of_mem c hx))
    simp [List.takeWhile_cons, hc, hcs]

theorem dropWhile_nonWs_append (s : Char) (hs : isWs s = true) (rest : List Char) :
    ∀ k : List Char, (∀ c ∈ k, isWs c = false) →
      (k ++ s :: rest).dropWhile (fun c => !(isWs c)) = s :: rest := by
  intro k
  induction k with
  | nil => intro _; simp [List.dropWhile_cons, hs]
  | cons c cs ih =>
    intro h
    have hc : isWs c = false := h c (List.mem_cons_self c cs)
    have hcs := ih (fun x hx => h x (List.mem_cons_of_mem c hx))
    simp [List.dropWhile_cons, hc, hcs]

theorem stripL_cons_ws (s : Char) (hs : isWs s = true) (v : List Char) :
    stripL (s :: v) = stripL v := by
  simp [stripL, List.dropWhile_cons, hs]

theorem parseLineL_encoded (k v : List Char) (hk1 : k ≠ [])
    (hk2 : ∀ c ∈ k, isWs c = false) :
    parseLineL (k ++ ' ' :: v) = some (k, stripL v) := by
  cases k with
  | nil => exact absurd rfl hk1
  | cons c k2 =>
    have hc : isWs c = false := hk2 c (List.mem_cons_self c k2)
    have hk2t : ∀ x ∈ k2, isWs x = false :=
      fun x hx => hk2 x (List.mem_cons_of_mem c hx)
    simp only [parseLineL, List.cons_append, List.dropWhile_cons, hc,
      Bool.false_eq_true, if_false]
    rw [show (c :: (k2 ++ ' ' :: v)) = ((c :: k2) ++ ' ' :: v) from rfl,
      takeWhile_nonWs_append ' ' (by decide) v (c :: k2) hk2]
    simp only [Bool.not_false, if_true]
    rw [dropWhile_nonWs_append ' ' (by decide) v k2 hk2t,
      stripL_cons_ws ' ' (by decide) v]

theorem foldl_dictInsert_lookup_notmem (k : String) (f : String → String) :
    ∀ (entries d : List (String × String)),
      (∀ kv ∈ entries, kv.1 ≠ k) →
      dictLookup k (entries.foldl (fun c kv => dictInsert c kv.1 (f kv.2)) d) =
        dictLookup k d := by
  intro entries
  induction entries with
  | nil => intro d _; rfl
  | cons kv rest ih =>
    intro d h
    rw [List.foldl_cons,
      ih _ (fun x hx => h x (List.mem_cons_of_mem kv hx)),
      dictLookup_insert_ne d kv.1 (f kv.2) k
        (Ne.symm (h kv (List.mem_cons_self kv rest)))]

theorem foldl_dictInsert_lookup (k v : String) (f : String → String) :
    ∀ (entries d : List (String × String)),
      (entries.map Prod.fst).Nodup →
      dictLookup k entries = some v →
      dictLookup k (entries.foldl (fun c kv => dictInsert c kv.1 (f kv.2)) d) =
        some (f v) := by
  intro entries
  induction entries with
  | nil => intro d _ hv; simp [dictLookup] at hv
  | cons kv rest ih =>
    intro d hnd hv
    rw [List.map_cons, List.nodup_cons] at hnd
    by_cases h1 : kv.1 = k
    · have hv2 : kv.2 = v := by
        rw [dictLookup_cons_self k kv rest h1] at hv
        exact Option.some.inj hv
      have hrest : ∀ x ∈ rest, x.1 ≠ k := by
        intro x hx hxk
        exact hnd.1 (h1 ▸ hxk ▸ List.mem_map_of_mem Prod.fst hx)
      rw [List.foldl_cons, foldl_dictInsert_lookup_notmem k f rest _ hrest, h1,
        dictLookup_insert_self, hv2]
    · have hv2 : dictLookup k rest = some v := by
        rw [dictLookup_cons_ne k kv rest h1] at hv
        exact hv
      rw [List.foldl_cons]
      exact ih _ hnd.2 hv2

theorem dictLookup_map_values (k : String) (f : String → String) :
    ∀ cfg : List (String × String),
      dictLookup k (cfg.map (fun kv => (kv.1, f kv.2))) = (dictLookup k cfg).map f := by
  intro cfg
  induction cfg with
  | nil => rfl
  | cons kv rest ih =>
    by_cases h1 : kv.1 = k
    · rw [List.map_cons, dictLookup_cons_self k (kv.1, f kv.2) _ h1,
        dictLookup_cons_self k kv _ h1]
      rfl
    · rw [List.map_cons, dictLookup_cons_ne k (kv.1, f kv.2) _ h1,
        dictLookup_cons_ne k kv _ h1]
      exact ih

theorem wfUbootCfg_props (cfg : List (String × String)) (h : wfUbootCfg cfg = true)
    (kv : String × String) (hkv : kv ∈ cfg) :
    kv.1.data ≠ [] ∧ (∀ c ∈ kv.1.data, isWs c = false) ∧ upperStr kv.1 = kv.1
    ∧ (∀ c ∈ kv.2.data, (c == '\n') = false) := by
  rw [wfUbootCfg, List.all_eq_true] at h
  have h2 := h kv hkv
  simp only [Bool.and_eq_true] at h2
  obtain ⟨⟨⟨h1, h2a⟩, h3⟩, h4⟩ := h2
  refine ⟨?_, ?_, eq_of_beq h3, ?_⟩
  · intro he
    rw [he] at h1
    simp at h1
  · intro c hc
    have := List.all_eq_true.mp h2a c hc
    simpa using this
  · intro c hc
    have := List.all_eq_true.mp h4 c hc
    simpa using this

theorem wf_line_no_nl (kv : String × String)
    (hk : ∀ c ∈ kv.1.data, isWs c = false)
    (hv : ∀ c ∈ kv.2.data, (c == '\n') = false) :
    ∀ c ∈ kv.1.data ++ ' ' :: kv.2.data, (c == '\n') = false := by
  intro c hc
  rcases List.mem_append.mp hc with h | h
  · have hws := hk c h
    have : ¬ c = '\n' := by
      intro he
      rw [he] at hws
      exact absurd hws (by decide)
    simpa using this
  · rcases List.mem_cons.mp h with h2 | h2
    · rw [h2]; decide
    · exact hv c h2

theorem parseLines_encode : ∀ cfg : List (String × String), wfUbootCfg cfg = true →
    ∀ d, parseLines (splitLinesL (joinSepL '\n'
        (cfg.map (fun kv => kv.1.data ++ ' ' :: kv.2.data)))) d =
      cfg.foldl (fun c kv => dictInsert c kv.1 (stripStr kv.2)) d := by
  intro cfg
  induction cfg with
  | nil => intro _ d; rfl
  | cons kv rest ih =>
    intro hwf d
    have hkv := wfUbootCfg_props _ hwf kv (List.mem_cons_self kv rest)
    have hwfrest : wfUbootCfg rest = true := by
      rw [wfUbootCfg, List.all_eq_true] at hwf ⊢
      exact fun x hx => hwf x (List.mem_cons_of_mem kv hx)
    have hnl : ∀ c ∈ kv.1.data ++ ' ' :: kv.2.data, (c == '\n') = false :=
      wf_line_no_nl kv hkv.2.1 hkv.2.2.2
    cases rest with
    | nil =>
      simp only [List.map_cons, List.map_nil]
      rw [show joinSepL '\n' [kv.1.data ++ ' ' :: kv.2.data] =
        kv.1.data ++ ' ' :: kv.2.data from rfl]
      rw [splitLinesL_no_nl _ hnl]
      simp only [parseLines, List.foldl_cons, List.foldl_nil]
      rw [parseLineL_encoded kv.1.data kv.2.data hkv.1 hkv.2.1]
      rfl
    | cons kv2 rest2 =>
      simp only [List.map_cons]
      rw [show joinSepL '\n' ((kv.1.data ++ ' ' :: kv.2.data) ::
            (kv2.1.data ++ ' ' :: kv2.2.data) ::
            rest2.map (fun kv => kv.1.data ++ ' ' :: kv.2.data)) =
          (kv.1.data ++ ' ' :: kv.2.data) ++ '\n' :: joinSepL '\n'
            ((kv2.1.data ++ ' ' :: kv2.2.data) ::
             rest2.map (fun kv => kv.1.data ++ ' ' :: kv.2.data)) from rfl,
        splitLinesL_append_nl _ _ hnl]
      simp only [parseLines, List.foldl_cons]
      rw [parseLineL_encoded kv.1.data kv.2.data hkv.1 hkv.2.1]
      have hrec := ih hwfrest (dictInsert d kv.1 (stripStr kv.2))
      simp only [parseLines, List.map_cons] at hrec
      exact hrec

theorem parse_encode_uboot_lookup (cfg : List (String × String))
    (hwf : wfUbootCfg cfg = true) (hnd : (cfg.map Prod.fst).Nodup)
    (k v : String) (hv : dictLookup k cfg = some v) :
    dictLookup k (parse_uboot (some (encode_uboot cfg))) = some (stripStr v) := by
  have hlines : (encode_uboot cfg).data =
      joinSepL '\n' (cfg.map (fun kv => kv.1.data ++ ' ' :: kv.2.data)) := by
    show joinSepL '\n' (cfg.map (fun kv => (upperStr kv.1).data ++ ' ' :: kv.2.data)) = _
    congr 1
    apply List.map_congr_left
    intro kv hkv
    rw [(wfUbootCfg_props cfg hwf kv hkv).2.2.1]
  rw [show parse_uboot (some (encode_uboot cfg)) =
      parseLines (splitLinesL (encode_uboot cfg).data) defaultUboot from rfl,
    hlines, parseLines_encode cfg hwf defaultUboot]
  exact foldl_dictInsert_lookup k v stripStr cfg defaultUboot hnd hv

/-- The translation always sets the migration marker to `"true"`. -/
theorem uboot_translate_marker (env : Env) (extcfg : List (String × String)) :
    dictLookup "U_BOOT_IS_SETUP" (uboot_translate env extcfg) = some "true" := by
  unfold uboot_translate
  cases ha : env.labelAppend <;> cases hf : env.labelFdt <;>
    cases ho : env.labelFdtoverlays <;>
    simp only [] <;>
    (repeat first
      | rw [dictLookup_insert_self]
      | rw [dictLookup_insert_ne _ _ _ _ (by decide)]
      | rw [dictLookup_erase_ne _ _ _ (by decide)])

/-- C2: running `uboot_migrator` twice in sequence performs the
translation write and the `u-boot-update` trigger exactly once: the
first run (on a legacy config whose marker is `"false"`) writes the
translated config — whose marker is `"true"` — and triggers the update;
the second run parses that file back, sees the marker no longer equal to
`"false"`, and performs no write and no trigger. -/
theorem uboot_migrator_idempotent (env : Env) (file : Option String)
    (he : env.ext = true) (hk : env.edk = false) (hd : env.dryrun = false)
    (hc : env.confirm = true)
    (hm : dictLookup "U_BOOT_IS_SETUP" (parse_uboot file) = some "false")
    (hwf : wfUbootCfg (uboot_translate env (parse_uboot file)) = true)
    (hnd : ((uboot_translate env (parse_uboot file)).map Prod.fst).Nodup) :
    countWrites (uboot_migrator env file).1 = 1
    ∧ countRun ["u-boot-update"] (uboot_migrator env file).1 = 1
    ∧ countWrites
        (uboot_migrator env (applyUbootFile file (uboot_migrator env file).1)).1 = 0
    ∧ countRun ["u-boot-update"]
        (uboot_migrator env (applyUbootFile file (uboot_migrator env file).1)).1 = 0 := by
  have htr := uboot_migrator_migrates env file he hk hc hm
  have hfile : applyUbootFile file (uboot_migrator env file).1 =
      some (encode_uboot (uboot_translate env (parse_uboot file))) := by
    rw [htr, hd]
    cases hi : env.installed <;>
      simp [applyUbootFile, runnerEff]
  have hmark2 : dictLookup "U_BOOT_IS_SETUP"
      (parse_uboot (some (encode_uboot (uboot_translate env (parse_uboot file))))) =
      some "true" := by
    have h2 := parse_encode_uboot_lookup _ hwf hnd "U_BOOT_IS_SETUP" "true"
      (uboot_translate_marker env (parse_uboot file))
    rw [h2]
    decide
  have htr2 : (uboot_migrator env (applyUbootFile file (uboot_migrator env file).1)).1 =
      (if env.installed then []
       else runnerEff env.dryrun
         ["sh", "-c", "pacman -Sy && pacman -S --noconfirm u-boot-update"]) := by
    rw [hfile]
    simp only [uboot_migrator, he, hk, Bool.not_true, Bool.false_or,
      Bool.false_eq_true, if_false, hmark2]
    simp
  refine ⟨?_, ?_, ?_, ?_⟩
  · rw [htr, hd]
    cases hi : env.installed <;>
      simp [countWrites, runnerEff]
  · rw [htr, hd]
    cases hi : env.installed <;>
      simp [countRun, runnerEff]
  · rw [htr2, hd]
    cases hi : env.installed <;>
      simp [countWrites, runnerEff]
  · rw [htr2, hd]
    cases hi : env.installed <;>
      simp [countRun, runnerEff]

/-- Witness for C2 on the concrete migration environment. -/
theorem uboot_migrator_idempotent_witness :
    countWrites (uboot_migrator envMigrate none).1 = 1
    ∧ countRun ["u-boot-update"] (uboot_migrator envMigrate none).1 = 1
    ∧ countWrites
        (uboot_migrator envMigrate
          (applyUbootFile none (uboot_migrator envMigrate none).1)).1 = 0
    ∧ countRun ["u-boot-update"]
        (uboot_migrator envMigrate
          (applyUbootFile none (uboot_migrator envMigrate none).1)).1 = 0 :=
  uboot_migrator_idempotent envMigrate none rfl rfl rfl rfl
    (by decide) (by decide) (by decide)
